import Mathlib

/-!
Verification of the CSV import pipeline implemented in
`src/components/sections/ImportManager.tsx`: spreadsheet parsing (`parseFile`,
`parseCSVLine`), record normalization (`convertToFormat`), duplicate detection
(`checkForDuplicates`), preview-row removal (`removePreviewItem`) and the import
path (`handleImport`, `importToStoreProducts`).

Modelling conventions for the JavaScript source:
* JS strings are `String`; only the ASCII fragment of `toLowerCase`/`trim` is
  modelled (all data handled by the screen is ASCII-oriented).
* JS objects used as string-keyed maps are association lists
  `List (String × _)` in insertion order; property assignment overwrites an
  existing key in place, otherwise appends.
* A JS `Map` is modelled by an association list where `set` prepends and `get`
  returns the first hit; this is observationally equal to `Map` for `get`,
  which is the only operation the source performs besides `set`.
* JS numbers are `Int` (counters) and `ℚ` (`parseFloat` results, idealized to
  exact arithmetic; no property proved here depends on float rounding, and
  `parseFloat` returning `NaN` is modelled by `none`).
* An absent (`undefined`) string property and `''` are both falsy under `||`,
  so reading a missing row field yields `""` and `a || b` becomes `jsOr`.
-/

/-- ASCII whitespace recognized by the models of JS `trim` and numeric parsing. -/
def isWsChar (c : Char) : Bool :=
  c = ' ' ∨ c = '\t' ∨ c = '\n' ∨ c = '\r' ∨ c = '\x0b' ∨ c = '\x0c'

/-- Model of JS `String.prototype.trim` (ASCII whitespace): drop whitespace from
both ends. -/
def jsTrim (s : String) : String :=
  ⟨(s.data.dropWhile isWsChar).rdropWhile isWsChar⟩

/-- Model of JS `String.prototype.split` with a one-character separator string:
`'a,,b'.split(',') = ['a','','b']`, `''.split(',') = ['']`. -/
def splitOnChar (sep : Char) : List Char → List (List Char)
  | [] => [[]]
  | c :: rest =>
    match splitOnChar sep rest with
    | [] => [[]]
    | g :: gs => if c = sep then [] :: g :: gs else (c :: g) :: gs

/-- JS `a || b` where `a` is a string read from a possibly absent field (both
`undefined` and `''` are falsy, and absent fields read as `""` here). -/
def jsOr (a b : String) : String := if a = "" then b else a

/-- ASCII lower-casing of one character, the fragment of JS `toLowerCase`
exercised by this screen. -/
def jsCharLower (c : Char) : Char :=
  if 'A' ≤ c ∧ c ≤ 'Z' then Char.ofNat (c.toNat + 32) else c

/-- ASCII model of JS `String.prototype.toLowerCase`. -/
def jsToLower (s : String) : String := ⟨s.data.map jsCharLower⟩

/-- Numeric value of a list of decimal digit characters (most significant first). -/
def digitsVal (ds : List Char) : Nat :=
  ds.foldl (fun n c => n * 10 + (c.toNat - 48)) 0

/-- Model of JS `parseInt(s)` for decimal input: skip leading whitespace, read an
optional sign and then a maximal digit run; `none` models `NaN` (no digits).
The `0x` hex form of `parseInt` is not modelled; the source only ever parses
decimal category indices. -/
def jsParseInt (s : String) : Option Int :=
  let cs := s.data.dropWhile isWsChar
  let signed : Int × List Char :=
    match cs with
    | '-' :: r => (-1, r)
    | '+' :: r => (1, r)
    | _ => (1, cs)
  let ds := signed.2.takeWhile Char.isDigit
  if ds = [] then none else some (signed.1 * (digitsVal ds : Int))

/-- Model of JS `parseFloat(s)` with exact rational arithmetic: skip leading
whitespace, optional sign, integer digits, optional fraction, optional decimal
exponent; `none` models `NaN` (nothing numeric parsed). The value
`sign * intPart.fracPart * 10 ^ expo` is built with `mkRat` so that it reduces
in the kernel. The `Infinity` literal is not modelled (no rating data uses it). -/
def jsParseFloat (s : String) : Option ℚ :=
  let cs := s.data.dropWhile isWsChar
  let signed : Int × List Char :=
    match cs with
    | '-' :: r => (-1, r)
    | '+' :: r => (1, r)
    | _ => (1, cs)
  let intPart := signed.2.takeWhile Char.isDigit
  let afterInt := signed.2.drop intPart.length
  let fracPair : List Char × List Char :=
    match afterInt with
    | '.' :: r => (r.takeWhile Char.isDigit, r.drop (r.takeWhile Char.isDigit).length)
    | _ => ([], afterInt)
  if intPart = [] ∧ fracPair.1 = [] then none
  else
    let mantNum : Int :=
      ((digitsVal intPart * 10 ^ fracPair.1.length + digitsVal fracPair.1 : Nat) : Int)
    let expo : Int :=
      match fracPair.2 with
      | 'e' :: r =>
        match r with
        | '-' :: rr => if rr.takeWhile Char.isDigit = [] then 0
                       else -(digitsVal (rr.takeWhile Char.isDigit) : Int)
        | '+' :: rr => if rr.takeWhile Char.isDigit = [] then 0
                       else (digitsVal (rr.takeWhile Char.isDigit) : Int)
        | _ => if r.takeWhile Char.isDigit = [] then 0
               else (digitsVal (r.takeWhile Char.isDigit) : Int)
      | 'E' :: r =>
        match r with
        | '-' :: rr => if rr.takeWhile Char.isDigit = [] then 0
                       else -(digitsVal (rr.takeWhile Char.isDigit) : Int)
        | '+' :: rr => if rr.takeWhile Char.isDigit = [] then 0
                       else (digitsVal (rr.takeWhile Char.isDigit) : Int)
        | _ => if r.takeWhile Char.isDigit = [] then 0
               else (digitsVal (r.takeWhile Char.isDigit) : Int)
      | _ => 0
    some (if 0 ≤ expo then
            mkRat (signed.1 * mantNum * ((10 ^ expo.toNat : Nat) : Int)) (10 ^ fracPair.1.length)
          else
            mkRat (signed.1 * mantNum) (10 ^ fracPair.1.length * 10 ^ (-expo).toNat))

/-- JS `x || d` for a number that may be `NaN` (`none`): `NaN` and `0` are falsy. -/
def jsNumOr (x : Option ℚ) (d : ℚ) : ℚ :=
  match x with
  | none => d
  | some q => if q = 0 then d else q

/-- Fuel-driven decimal rendering of a natural number (digits in order,
most significant first). `natReprChars` supplies enough fuel. -/
def natReprCore : Nat → Nat → List Char
  | 0, _ => []
  | fuel + 1, n =>
    if n < 10 then [Nat.digitChar n]
    else natReprCore fuel (n / 10) ++ [Nat.digitChar (n % 10)]

/-- Decimal digit characters of `n`. -/
def natReprChars (n : Nat) : List Char := natReprCore (n + 1) n

/-- Decimal string of a natural number, modelling JS template interpolation of
`Date.now()` and an item index in `` `item_${Date.now()}_${index}` ``. -/
def natToString (n : Nat) : String := ⟨natReprChars n⟩

/-- URL normalization used by duplicate detection:
`url.toLowerCase().replace(/\/$/, '')` — lower-case, then strip one trailing
slash if present. -/
def normalizeUrl (s : String) : String :=
  let low := jsToLower s
  if low.data.getLast? = some '/' then ⟨low.data.dropLast⟩ else low

/-! ### Data model -/

/-- A parsed data row (`ProductData`): column header paired with the processed
field value, in header order. The JS code assigns `row[header] = value` per
header index, so reading a key takes the last assignment (`rowGet`). -/
abbrev RawRow := List (String × String)

/-- UI-side store-product candidate (`ParsedStoreProduct`), including the
UI-only duplicate annotations; `none` models an absent optional TS field. -/
structure ParsedStoreProduct where
  image : String
  links : String
  no_of_ratings : String
  pricing : String
  ratings : ℚ
  title : String
  isDuplicate : Option Bool := none
  duplicateSource : Option String := none
  deriving DecidableEq

/-- UI-side website-link candidate (`ParsedWebsiteItem`). -/
structure ParsedWebsiteItem where
  click : String
  images : String
  name : String
  isDuplicate : Option Bool := none
  duplicateSource : Option String := none
  deriving DecidableEq

/-- A store product as persisted (the candidate minus the two UI-only
annotation fields, exactly the shape produced by the import's destructuring
`const { isDuplicate, duplicateSource, ...cleanProduct } = product`). -/
structure StoreItem where
  image : String
  links : String
  no_of_ratings : String
  pricing : String
  ratings : ℚ
  title : String
  deriving DecidableEq

/-- An existing store category (`ShopCategory`), items keyed by item key in
insertion order. -/
structure ShopCategory where
  image : String
  items : List (String × StoreItem)
  title : String
  deriving DecidableEq

/-- A website item as persisted. -/
structure WebsiteStoredItem where
  click : String
  images : String
  name : String
  deriving DecidableEq

/-- An existing website category (`HomeCategory`). -/
structure HomeCategory where
  image : String
  items : List (String × WebsiteStoredItem)
  name : String
  deriving DecidableEq

/-- One entry of `duplicateDetails`. -/
structure DupDetail where
  productName : String
  clickUrl : String
  foundInCategory : String
  deriving DecidableEq

/-- Aggregate result of a duplicate check (`DuplicateCheckResult`); the counts
are JS numbers, modelled by `Int`. -/
structure DuplicateCheckResult where
  totalProducts : Int
  duplicates : Int
  newProducts : Int
  duplicateDetails : List DupDetail
  deriving DecidableEq

/-! ### Spreadsheet parser -/

/-- Model of `parseCSVLine`: scan one line; a double quote toggles `inQuotes`
and is never emitted; a comma outside quotes ends the current field; every
other character is appended to the current field. -/
def parseCSVLineAux : List Char → String → Bool → List String
  | [], current, _ => [current]
  | c :: rest, current, inQuotes =>
    if c = '"' then parseCSVLineAux rest current (!inQuotes)
    else if c = ',' ∧ inQuotes = false then current :: parseCSVLineAux rest "" false
    else parseCSVLineAux rest (current.push c) inQuotes

/-- Splits one data line into field values (`parseCSVLine`). -/
def parseCSVLine (line : String) : List String := parseCSVLineAux line.data "" false

/-- Per-field post-processing in `parseFile`:
`values[index]?.replace(/"/g, '').trim() || ''` (the final `|| ''` is the
identity on an already-empty trimmed string). -/
def processField (v : String) : String :=
  jsTrim ⟨v.data.filter (fun c => c ≠ '"')⟩

/-- Header processing in `parseFile`:
`lines[0].split(',').map(h => h.replace(/"/g, '').trim())`. -/
def parseHeaders (l : String) : List String :=
  (splitOnChar ',' l.data).map (fun h => jsTrim ⟨h.filter (fun c => c ≠ '"')⟩)

/-- Builds the `RawRow` for one data line whose value count matches the header
count: `headers.forEach((header, index) => row[header] = process(values[index]))`. -/
def mkRow (headers : List String) (values : List String) : RawRow :=
  (headers.zip values).map (fun hv => (hv.1, processField hv.2))

/-- `text.split('\n').filter(line => line.trim())`: the lines kept are the
original (untrimmed) ones; whitespace-only lines are removed. -/
def nonEmptyLines (text : String) : List String :=
  ((splitOnChar '\n' text.data).map (fun l => (⟨l⟩ : String))).filter
    (fun l => jsTrim l ≠ "")

/-- The accumulation loop of `parseFile` over the data lines: a row is pushed
exactly when its comma-split value count equals the header count; other data
lines are skipped. -/
def parseRowsLoop (headers : List String) : List String → List RawRow → List RawRow
  | [], data => data
  | l :: rest, data =>
    let values := parseCSVLine l
    if values.length = headers.length then
      parseRowsLoop headers rest (data ++ [mkRow headers values])
    else parseRowsLoop headers rest data

/-- Model of the pure parsing core of `parseFile`: filter non-empty lines, fail
unless a header line and at least one data line exist, then build one `RawRow`
per arity-matching data line. -/
def parseFile (text : String) : Except String (List RawRow) :=
  match nonEmptyLines text with
  | l0 :: l1 :: rest => .ok (parseRowsLoop (parseHeaders l0) (l1 :: rest) [])
  | _ => .error "File must contain at least a header row and one data row"

/-! ### Record normalizer -/

/-- Reads `row[key]`: the last assignment to a header name wins (duplicate
headers overwrite), an absent key reads as `""`. -/
def rowGet (r : RawRow) (k : String) : String :=
  match r.reverse.find? (fun kv => kv.1 == k) with
  | some kv => kv.2
  | none => ""

/-- Store-mode branch of `convertToFormat`. -/
def convertToStoreFormat (item : RawRow) : ParsedStoreProduct :=
  { image := jsOr (jsOr (rowGet item "ImageUrl") (rowGet item "Image")) ""
    links := jsOr (jsOr (jsOr (rowGet item "ClickUrl") (rowGet item "Link")) (rowGet item "Url")) ""
    no_of_ratings := jsOr (jsOr (rowGet item "Ratings") (rowGet item "Reviews")) ""
    pricing := jsOr (rowGet item "Currency") "USD" ++ " " ++
      jsOr (jsOr (rowGet item "OriginalPrice") (rowGet item "Price")) "0"
    ratings := jsNumOr (jsParseFloat (jsOr (rowGet item "Rating") "0")) 0
    title := jsOr (jsOr (jsOr (rowGet item "Name") (rowGet item "Title"))
      (rowGet item "ProductName")) "Untitled Product" }

/-- Website-mode branch of `convertToFormat`. -/
def convertToWebsiteFormat (item : RawRow) : ParsedWebsiteItem :=
  { click := jsOr (jsOr (jsOr (rowGet item "ClickUrl") (rowGet item "Link")) (rowGet item "Url")) ""
    images := jsOr (jsOr (rowGet item "ImageUrl") (rowGet item "Image")) ""
    name := jsOr (jsOr (jsOr (rowGet item "Name") (rowGet item "Title"))
      (rowGet item "ProductName")) "Untitled Item" }

/-! ### Duplicate detector -/

/-- JS `Map.set` on the `existingUrls` map, for a map that is only read back via
`get`: prepend, so that the most recent `set` for a key wins on lookup. -/
def mapSet (m : List (String × String)) (k v : String) : List (String × String) :=
  (k, v) :: m

/-- JS `Map.get`: first (most recent) binding of the key, or `none`. -/
def mapGet (m : List (String × String)) (k : String) : Option String :=
  (m.find? (fun kv => kv.1 == k)).map (fun kv => kv.2)

/-- Inner loop of the `existingUrls` construction for one category: for every
item url, `if (url) existingUrls.set(normalizeUrl url, label)`. -/
def addUrlsFold (m : List (String × String)) (label : String) (urls : List String) :
    List (String × String) :=
  urls.foldl (fun m u => if u ≠ "" then mapSet m (normalizeUrl u) label else m) m

/-- The `existingUrls` construction over a list of (category label, item urls)
entries, in category order. -/
def buildUrlEntries (entries : List (String × List String)) : List (String × String) :=
  entries.foldl (fun m e => addUrlsFold m e.1 e.2) []

/-- `existingUrls` for the store-products destination: scan every item of every
`ShopCategory`, keyed by normalized `item.links`, valued by `category.title`. -/
def buildStoreUrlMap (cats : List ShopCategory) : List (String × String) :=
  cats.foldl (fun m cat => addUrlsFold m cat.title (cat.items.map (fun kv => kv.2.links))) []

/-- `existingUrls` for the website destination: scan every item of every
`HomeCategory` value, keyed by normalized `item.click`, valued by `category.name`. -/
def buildWebsiteUrlMap (wcats : List (String × HomeCategory)) : List (String × String) :=
  (wcats.map (fun kv => kv.2)).foldl
    (fun m cat => addUrlsFold m cat.name (cat.items.map (fun kv => kv.2.click))) []

/-- The annotation pass of `checkForDuplicates` (store mode): one walk over the
candidates producing the annotated list and, in the same order, the pushed
`duplicateDetails`. A candidate is a duplicate when `existingUrls.get` of its
normalized url is truthy (present and non-empty). -/
def annotateStore (existingUrls : List (String × String)) :
    List ParsedStoreProduct → List ParsedStoreProduct × List DupDetail
  | [] => ([], [])
  | p :: rest =>
    let tail := annotateStore existingUrls rest
    match mapGet existingUrls (normalizeUrl p.links) with
    | some t =>
      if t ≠ "" then
        ({ p with isDuplicate := some true, duplicateSource := some t } :: tail.1,
         { productName := p.title, clickUrl := p.links, foundInCategory := t } :: tail.2)
      else ({ p with isDuplicate := some false } :: tail.1, tail.2)
    | none => ({ p with isDuplicate := some false } :: tail.1, tail.2)

/-- The annotation pass of `checkForDuplicates` (website mode). -/
def annotateWebsite (existingUrls : List (String × String)) :
    List ParsedWebsiteItem → List ParsedWebsiteItem × List DupDetail
  | [] => ([], [])
  | p :: rest =>
    let tail := annotateWebsite existingUrls rest
    match mapGet existingUrls (normalizeUrl p.click) with
    | some t =>
      if t ≠ "" then
        ({ p with isDuplicate := some true, duplicateSource := some t } :: tail.1,
         { productName := p.name, clickUrl := p.click, foundInCategory := t } :: tail.2)
      else ({ p with isDuplicate := some false } :: tail.1, tail.2)
    | none => ({ p with isDuplicate := some false } :: tail.1, tail.2)

/-- `checkForDuplicates` for the store-products destination: a pure function of
the candidate list and the existing corpus, returning the annotated candidates
(which the component stores as the new preview data) and the aggregate result. -/
def checkForDuplicatesStore (cats : List ShopCategory) (products : List ParsedStoreProduct) :
    List ParsedStoreProduct × DuplicateCheckResult :=
  let pair := annotateStore (buildStoreUrlMap cats) products
  (pair.1,
   { totalProducts := (products.length : Int)
     duplicates := (pair.2.length : Int)
     newProducts := (products.length : Int) - (pair.2.length : Int)
     duplicateDetails := pair.2 })

/-- `checkForDuplicates` for the website destination. -/
def checkForDuplicatesWebsite (wcats : List (String × HomeCategory))
    (products : List ParsedWebsiteItem) :
    List ParsedWebsiteItem × DuplicateCheckResult :=
  let pair := annotateWebsite (buildWebsiteUrlMap wcats) products
  (pair.1,
   { totalProducts := (products.length : Int)
     duplicates := (pair.2.length : Int)
     newProducts := (products.length : Int) - (pair.2.length : Int)
     duplicateDetails := pair.2 })

/-- Per-candidate annotation step of `annotateStore` (helper used to state the
one-pass walk as a `map`). -/
def annStoreOne (urls : List (String × String)) (p : ParsedStoreProduct) : ParsedStoreProduct :=
  match mapGet urls (normalizeUrl p.links) with
  | some t =>
    if t ≠ "" then { p with isDuplicate := some true, duplicateSource := some t }
    else { p with isDuplicate := some false }
  | none => { p with isDuplicate := some false }

/-- Per-candidate detail step of `annotateStore` (helper used to state the
pushed details as a `filterMap`). -/
def detailStoreOne (urls : List (String × String)) (p : ParsedStoreProduct) : Option DupDetail :=
  match mapGet urls (normalizeUrl p.links) with
  | some t =>
    if t ≠ "" then some { productName := p.title, clickUrl := p.links, foundInCategory := t }
    else none
  | none => none

/-- Per-candidate annotation step of `annotateWebsite`. -/
def annWebOne (urls : List (String × String)) (p : ParsedWebsiteItem) : ParsedWebsiteItem :=
  match mapGet urls (normalizeUrl p.click) with
  | some t =>
    if t ≠ "" then { p with isDuplicate := some true, duplicateSource := some t }
    else { p with isDuplicate := some false }
  | none => { p with isDuplicate := some false }

/-- Per-candidate detail step of `annotateWebsite`. -/
def detailWebOne (urls : List (String × String)) (p : ParsedWebsiteItem) : Option DupDetail :=
  match mapGet urls (normalizeUrl p.click) with
  | some t =>
    if t ≠ "" then some { productName := p.name, clickUrl := p.click, foundInCategory := t }
    else none
  | none => none

/-! ### Preview-row removal -/

/-- `removePreviewItem`: drop the preview entry at `index`
(`previewData.filter((_, i) => i !== index)`) and recompute the counts of the
stored `DuplicateCheckResult`; `duplicateDetails` is kept as-is. A preview item
counts as duplicate when its `isDuplicate` field is truthy (`some true`). -/
def removePreviewItem (preview : List ParsedStoreProduct) (old : DuplicateCheckResult)
    (index : Nat) : List ParsedStoreProduct × DuplicateCheckResult :=
  let newPreviewData := (preview.enum.filter (fun ip => ip.1 ≠ index)).map (fun ip => ip.2)
  let dups := (newPreviewData.filter (fun p => p.isDuplicate = some true)).length
  (newPreviewData,
   { old with
     totalProducts := (newPreviewData.length : Int)
     duplicates := (dups : Int)
     newProducts := (newPreviewData.length : Int) - (dups : Int) })

/-! ### Importer (store-products destination) -/

/-- JS object property assignment `obj[k] = v` on a string-keyed object in
insertion order: overwrite in place if the key exists, else append. -/
def jsObjSet (m : List (String × StoreItem)) (k : String) (v : StoreItem) :
    List (String × StoreItem) :=
  if (m.find? (fun kv => kv.1 == k)).isSome then
    m.map (fun kv => if kv.1 == k then (k, v) else kv)
  else m ++ [(k, v)]

/-- The fresh item key `` `item_${Date.now()}_${index}` ``; `now` is the
`Date.now()` value during the write loop. -/
def itemKey (now index : Nat) : String :=
  "item_" ++ natToString now ++ "_" ++ natToString index

/-- `const { isDuplicate, duplicateSource, ...cleanProduct } = product`. -/
def cleanStore (p : ParsedStoreProduct) : StoreItem :=
  { image := p.image, links := p.links, no_of_ratings := p.no_of_ratings,
    pricing := p.pricing, ratings := p.ratings, title := p.title }

/-- Model of `importToStoreProducts`. Returns `(payload, localAfter)`:
`payload` is the full `ShopCategories` array handed to the store write, and
`localAfter` is the value of the component's `existingStoreCategories` state
after the function ran. The source copies the state array shallowly
(`[...existingStoreCategories]`) and then assigns into the shared target
category object and its shared `items` object in place
(`categoryItems[itemKey] = cleanProduct`, `updatedCategories[i].items = ...`),
so for an existing target category the local state sees exactly the written
update (`localAfter = payload`), while a newly pushed category object is fresh
and leaves the local state untouched (`localAfter = cats`). Errors are thrown
before any mutation. -/
def importToStoreProducts (cats : List ShopCategory) (newCategoryName selectedCategory : String)
    (now : Nat) (products : List ParsedStoreProduct) :
    Except String (List ShopCategory × List ShopCategory) :=
  if jsTrim newCategoryName ≠ "" then
    let newCat : ShopCategory := { image := "", items := [], title := jsTrim newCategoryName }
    let newItems := products.enum.foldl
      (fun m ip => jsObjSet m (itemKey now ip.1) (cleanStore ip.2)) newCat.items
    .ok (cats ++ [{ newCat with items := newItems }], cats)
  else
    match jsParseInt selectedCategory with
    | none => .error "Invalid category selection"
    | some k =>
      if k = -1 then .error "Invalid category selection"
      else if h : 0 ≤ k ∧ k.toNat < cats.length then
        let cat := cats.get ⟨k.toNat, h.2⟩
        let newItems := products.enum.foldl
          (fun m ip => jsObjSet m (itemKey now ip.1) (cleanStore ip.2)) cat.items
        let payload := cats.set k.toNat { cat with items := newItems }
        .ok (payload, payload)
      else .error "Invalid category selection"

/-- The component-local state consumed by `handleImport` (store destination). -/
structure LocalState where
  previewData : List ParsedStoreProduct
  selectedCategory : String
  newCategoryName : String
  skipDuplicates : Bool
  existingStoreCategories : List ShopCategory
  deriving DecidableEq

/-- `skipDuplicates ? previewData.filter(item => !item.isDuplicate) : previewData`;
`!item.isDuplicate` keeps an item whose flag is not truthy. -/
def itemsToImportOf (st : LocalState) : List ParsedStoreProduct :=
  if st.skipDuplicates then st.previewData.filter (fun p => p.isDuplicate ≠ some true)
  else st.previewData

/-- Model of `handleImport` for the store destination, as a function of the
local state, the `Date.now()` value and whether the single store write
succeeds. Returns `(written, stateAfter, errorMessage)`: `written` is the
payload of the one successful store write (`none` when nothing was written),
`stateAfter` the component-local state afterwards, and `errorMessage` the
toast error if any. On success the form is reset and the categories are
re-fetched from the store (which now holds the payload). On a failed write
nothing further is assigned, but the local category data already reflects the
in-place mutation performed by `importToStoreProducts` (see there). -/
def handleImportStore (st : LocalState) (now : Nat) (writeOk : Bool) :
    Option (List ShopCategory) × LocalState × Option String :=
  if st.previewData = [] then (none, st, some "No data to import")
  else if st.selectedCategory = "" ∧ jsTrim st.newCategoryName = "" then
    (none, st, some "Please select an existing category or enter a new category name")
  else
    let itemsToImport := itemsToImportOf st
    if itemsToImport = [] then (none, st, some "No items to import after filtering duplicates")
    else
      match importToStoreProducts st.existingStoreCategories st.newCategoryName
          st.selectedCategory now itemsToImport with
      | .error msg => (none, st, some ("Failed to import items: " ++ msg))
      | .ok payloadLocal =>
        if writeOk then
          (some payloadLocal.1,
           { st with previewData := [], selectedCategory := "", newCategoryName := "",
                     existingStoreCategories := payloadLocal.1 },
           none)
        else
          (none, { st with existingStoreCategories := payloadLocal.2 },
           some "Failed to import items: write error")

deriving instance DecidableEq for Except

/-! ### Concrete instances used to evaluate the model -/

/-- A row carrying values only under the primary store-mode column names. -/
def primaryRow (n img l p c : String) : RawRow :=
  [("Name", n), ("ImageUrl", img), ("ClickUrl", l), ("OriginalPrice", p), ("Currency", c)]

/-- The equivalent row carrying the same values only under the documented
fallback column names (`Currency` has no fallback column). -/
def fallbackRow (n img l p : String) : RawRow :=
  [("Title", n), ("Image", img), ("Link", l), ("Price", p)]

/-- Corpus of the worked duplicate-detection example: one category
`Electronics` holding one item with url `https://x.com/p`. -/
def exampleCats : List ShopCategory :=
  [{ image := "", title := "Electronics",
     items := [("item1",
       { image := "", links := "https://x.com/p", no_of_ratings := "",
         pricing := "USD 5", ratings := 0, title := "Existing" })] }]

/-- Candidates of the worked example: the same url verbatim and with different
casing plus a trailing slash. -/
def exampleProducts : List ParsedStoreProduct :=
  [{ image := "", links := "https://x.com/p", no_of_ratings := "", pricing := "USD 1",
     ratings := 0, title := "A" },
   { image := "", links := "HTTPS://X.COM/P/", no_of_ratings := "", pricing := "USD 2",
     ratings := 0, title := "B" }]

/-- A corpus containing an existing item whose link url is the empty string
(the source skips such items when building `existingUrls`). -/
def emptyLinkCats : List ShopCategory :=
  [{ image := "", title := "Books",
     items := [("k",
       { image := "", links := "", no_of_ratings := "", pricing := "", ratings := 0,
         title := "NoLink" })] }]

/-- A candidate whose link url is also the empty string. -/
def emptyLinkProduct : ParsedStoreProduct :=
  { image := "", links := "", no_of_ratings := "", pricing := "", ratings := 0, title := "C" }

/-- A corpus whose only url differs from the one the intra-file candidates share. -/
def otherUrlCats : List ShopCategory :=
  [{ image := "", title := "Cat",
     items := [("k",
       { image := "", links := "https://other.com/q", no_of_ratings := "", pricing := "",
         ratings := 0, title := "Other" })] }]

/-- Two candidates of one import file sharing the same normalized url, which is
absent from the existing corpus. -/
def sharedUrlProducts : List ParsedStoreProduct :=
  [{ image := "", links := "https://X.com/p", no_of_ratings := "", pricing := "",
     ratings := 0, title := "First" },
   { image := "", links := "https://x.com/p/", no_of_ratings := "", pricing := "",
     ratings := 0, title := "Second" }]

/-- An annotated five-row preview, two rows flagged duplicate. -/
def fivePreview : List ParsedStoreProduct :=
  [{ image := "", links := "https://s.com/1", no_of_ratings := "", pricing := "USD 1",
     ratings := 0, title := "P1", isDuplicate := some false },
   { image := "", links := "https://s.com/2", no_of_ratings := "", pricing := "USD 2",
     ratings := 0, title := "P2", isDuplicate := some true, duplicateSource := some "Cat" },
   { image := "", links := "https://s.com/3", no_of_ratings := "", pricing := "USD 3",
     ratings := 0, title := "P3", isDuplicate := some false },
   { image := "", links := "https://s.com/4", no_of_ratings := "", pricing := "USD 4",
     ratings := 0, title := "P4", isDuplicate := some true, duplicateSource := some "Cat" },
   { image := "", links := "https://s.com/5", no_of_ratings := "", pricing := "USD 5",
     ratings := 0, title := "P5", isDuplicate := some false }]

/-- The pre-existing target category of the import examples. -/
def oldTargetCat : ShopCategory :=
  { image := "", title := "Cat",
    items := [("old",
      { image := "", links := "https://old.com", no_of_ratings := "",
        pricing := "USD 9", ratings := 0, title := "Old" })] }

/-- Local state for the import examples: five preview rows, target the existing
category at index `0`, skip duplicates. -/
def importState : LocalState :=
  { previewData := fivePreview, selectedCategory := "0", newCategoryName := "",
    skipDuplicates := true, existingStoreCategories := [oldTargetCat] }

/-- The same state with `skipDuplicates := false` (import-all choice). -/
def importAllState : LocalState :=
  { importState with skipDuplicates := false }

/-- A state with neither an existing category selected nor a new category named
(the new name is whitespace-only, so it trims to empty). -/
def noCategoryState : LocalState :=
  { previewData := fivePreview, selectedCategory := "", newCategoryName := "   ",
    skipDuplicates := true, existingStoreCategories := [] }

/-- A state whose preview rows are all flagged duplicate while skipping
duplicates, so the filtered candidate list is empty. -/
def allDupState : LocalState :=
  { previewData := [{ image := "", links := "https://s.com/2", no_of_ratings := "",
                      pricing := "USD 2", ratings := 0, title := "P2",
                      isDuplicate := some true, duplicateSource := some "Cat" }],
    selectedCategory := "0", newCategoryName := "", skipDuplicates := true,
    existingStoreCategories := [{ image := "", items := [], title := "Cat" }] }

/-- State of the failed-write scenario: one non-duplicate candidate imported
into the existing category at index `0`. -/
def failedWriteState : LocalState :=
  { previewData := [{ image := "", links := "https://a.com/x", no_of_ratings := "",
                      pricing := "USD 1", ratings := 0, title := "P",
                      isDuplicate := some false }],
    selectedCategory := "0", newCategoryName := "", skipDuplicates := true,
    existingStoreCategories := [{ image := "", items := [], title := "Cat" }] }

/-! ### Helper lemmas: strings and keys -/

theorem jsOr_empty (b : String) : jsOr "" b = b := if_pos rfl

theorem dropWhile_head_false {α : Type} (p : α → Bool) (l : List α) (c : α)
    (t : List α) (h : l.dropWhile p = c :: t) : p c = false := by
  induction l with
  | nil => simp at h
  | cons a as ih =>
    by_cases hp : p a
    · rw [List.dropWhile_cons_of_pos hp] at h
      exact ih h
    · rw [List.dropWhile_cons_of_neg hp] at h
      injection h with h1 h2
      subst h1
      simpa using hp

theorem jsTrim_idem (s : String) : jsTrim (jsTrim s) = jsTrim s := by
  apply String.ext
  show ((jsTrim s).data.dropWhile isWsChar).rdropWhile isWsChar = (jsTrim s).data
  have hdrop : (jsTrim s).data.dropWhile isWsChar = (jsTrim s).data := by
    cases h2 : (jsTrim s).data with
    | nil => simp
    | cons c t =>
      have hpre : (jsTrim s).data <+: s.data.dropWhile isWsChar :=
        List.rdropWhile_prefix isWsChar (s.data.dropWhile isWsChar)
      obtain ⟨t', ht'⟩ := hpre
      rw [h2] at ht'
      have hc : isWsChar c = false :=
        dropWhile_head_false isWsChar s.data c (t ++ t') ht'.symm
      rw [List.dropWhile_cons_of_neg (by simp [hc])]
  rw [hdrop]
  exact List.rdropWhile_idempotent isWsChar (s.data.dropWhile isWsChar)

theorem jsTrim_sublist (s : String) : (jsTrim s).data.Sublist s.data := by
  have h1 : (jsTrim s).data.Sublist (s.data.dropWhile isWsChar) :=
    (List.rdropWhile_prefix isWsChar (s.data.dropWhile isWsChar)).sublist
  exact h1.trans (List.dropWhile_sublist _)

theorem processField_no_quote (v : String) : '"' ∉ (processField v).data := by
  intro hmem
  have h2 : '"' ∈ v.data.filter (fun c => c ≠ '"') :=
    (jsTrim_sublist ⟨v.data.filter (fun c => c ≠ '"')⟩).subset hmem
  simp at h2

theorem processField_trimmed (v : String) : jsTrim (processField v) = processField v :=
  jsTrim_idem _

theorem digitsVal_append (xs : List Char) (c : Char) :
    digitsVal (xs ++ [c]) = digitsVal xs * 10 + (c.toNat - 48) := by
  simp [digitsVal, List.foldl_append]

theorem digitChar_sub (n : Nat) (h : n < 10) : (Nat.digitChar n).toNat - 48 = n := by
  interval_cases n <;> rfl

theorem natReprCore_val (fuel : Nat) :
    ∀ n : Nat, n < fuel → digitsVal (natReprCore fuel n) = n := by
  induction fuel with
  | zero => intro n h; omega
  | succ f ih =>
    intro n h
    by_cases h10 : n < 10
    · simp [natReprCore, h10, digitsVal, digitChar_sub n h10]
    · have hlt : n / 10 < n := Nat.div_lt_self (by omega) (by omega)
      have hdf : n / 10 < f := by omega
      rw [natReprCore, if_neg h10, digitsVal_append, ih _ hdf,
        digitChar_sub (n % 10) (Nat.mod_lt _ (by omega))]
      omega

theorem natReprChars_val (n : Nat) : digitsVal (natReprChars n) = n :=
  natReprCore_val (n + 1) n (Nat.lt_succ_self n)

theorem natToString_inj (a b : Nat) (h : natToString a = natToString b) : a = b := by
  have h2 : natReprChars a = natReprChars b := congrArg String.data h
  calc a = digitsVal (natReprChars a) := (natReprChars_val a).symm
    _ = digitsVal (natReprChars b) := by rw [h2]
    _ = b := natReprChars_val b

theorem itemKey_inj (now i j : Nat) (h : itemKey now i = itemKey now j) : i = j := by
  have hd : ("item_".data ++ natReprChars now ++ "_".data) ++ natReprChars i
      = ("item_".data ++ natReprChars now ++ "_".data) ++ natReprChars j := by
    have h0 := congrArg String.data h
    simpa [itemKey, natToString, String.data_append, List.append_assoc] using h0
  have h2 : natReprChars i = natReprChars j := List.append_cancel_left hd
  exact natToString_inj i j (congrArg String.mk h2)

/-! ### Helper lemmas: parser -/

theorem parseRowsLoop_eq (headers : List String) :
    ∀ (ls : List String) (data : List RawRow),
      parseRowsLoop headers ls data =
        data ++ ls.filterMap (fun l =>
          if (parseCSVLine l).length = headers.length then
            some (mkRow headers (parseCSVLine l))
          else none) := by
  intro ls
  induction ls with
  | nil => intro data; simp [parseRowsLoop]
  | cons l rest ih =>
    intro data
    by_cases h : (parseCSVLine l).length = headers.length
    · simp [parseRowsLoop, h, ih, List.filterMap_cons]
    · simp [parseRowsLoop, h, ih, List.filterMap_cons]

theorem filterMap_if_length {α β : Type} (p : α → Prop) [DecidablePred p] (f : α → β)
    (ls : List α) :
    (ls.filterMap (fun l => if p l then some (f l) else none)).length
      = ls.countP (fun l => decide (p l)) := by
  induction ls with
  | nil => rfl
  | cons l rest ih =>
    by_cases h : p l
    · simp [List.filterMap_cons, h, ih, List.countP_cons]
    · simp [List.filterMap_cons, h, ih, List.countP_cons]

theorem mkRow_length (headers values : List String) (h : values.length = headers.length) :
    (mkRow headers values).length = headers.length := by
  simp [mkRow, h]

/-- C2: on every accepted input the parser yields exactly one `RawRow` per data
line whose comma-split value count equals the header count (other data lines
are silently dropped, preserving order), every row pairs the headers with the
quote-stripped and trimmed split values, every row's length equals the header
count, and every stored field is quote-free and fixed under trimming. -/
theorem parseFile_rows_spec (text : String) (l0 : String) (ds : List String)
    (rows : List RawRow) (hlines : nonEmptyLines text = l0 :: ds)
    (hok : parseFile text = .ok rows) :
    rows = ds.filterMap (fun l =>
        if (parseCSVLine l).length = (parseHeaders l0).length then
          some (mkRow (parseHeaders l0) (parseCSVLine l))
        else none)
    ∧ rows.length = ds.countP
        (fun l => decide ((parseCSVLine l).length = (parseHeaders l0).length))
    ∧ (∀ r ∈ rows, r.length = (parseHeaders l0).length)
    ∧ (∀ r ∈ rows, ∀ kv ∈ r, '"' ∉ kv.2.data ∧ jsTrim kv.2 = kv.2) := by
  rw [parseFile, hlines] at hok
  cases ds with
  | nil => simp at hok
  | cons d1 drest =>
    have hrows : parseRowsLoop (parseHeaders l0) (d1 :: drest) [] = rows :=
      Except.ok.inj hok
    rw [parseRowsLoop_eq, List.nil_append] at hrows
    have hmem : ∀ r ∈ rows, ∃ l, l ∈ d1 :: drest ∧
        (parseCSVLine l).length = (parseHeaders l0).length ∧
        r = mkRow (parseHeaders l0) (parseCSVLine l) := by
      intro r hr
      rw [← hrows] at hr
      obtain ⟨l, hl, hfl⟩ := List.mem_filterMap.mp hr
      by_cases hcase : (parseCSVLine l).length = (parseHeaders l0).length
      · rw [if_pos hcase] at hfl
        exact ⟨l, hl, hcase, (Option.some.inj hfl).symm⟩
      · rw [if_neg hcase] at hfl
        cases hfl
    refine ⟨hrows.symm, ?_, ?_, ?_⟩
    · rw [← hrows, filterMap_if_length]
    · intro r hr
      obtain ⟨l, _, hlen, rfl⟩ := hmem r hr
      exact mkRow_length _ _ hlen
    · intro r hr kv hkv
      obtain ⟨l, _, _, rfl⟩ := hmem r hr
      obtain ⟨hv, _, rfl⟩ := List.mem_map.mp hkv
      exact ⟨processField_no_quote hv.2, processField_trimmed hv.2⟩

theorem parseFile_rows_spec_witness :
    ([[("Name", "A"), ("ClickUrl", "u1")], [("Name", "B"), ("ClickUrl", "u2")]] : List RawRow)
      = ["\" A \",u1", "bad,line,extra", "B,u2"].filterMap (fun l =>
        if (parseCSVLine l).length = (parseHeaders "Name,ClickUrl").length then
          some (mkRow (parseHeaders "Name,ClickUrl") (parseCSVLine l))
        else none)
    ∧ ([[("Name", "A"), ("ClickUrl", "u1")], [("Name", "B"), ("ClickUrl", "u2")]] : List RawRow).length
      = ["\" A \",u1", "bad,line,extra", "B,u2"].countP
        (fun l => decide ((parseCSVLine l).length = (parseHeaders "Name,ClickUrl").length))
    ∧ (∀ r ∈ ([[("Name", "A"), ("ClickUrl", "u1")], [("Name", "B"), ("ClickUrl", "u2")]] : List RawRow),
        r.length = (parseHeaders "Name,ClickUrl").length)
    ∧ (∀ r ∈ ([[("Name", "A"), ("ClickUrl", "u1")], [("Name", "B"), ("ClickUrl", "u2")]] : List RawRow),
        ∀ kv ∈ r, '"' ∉ kv.2.data ∧ jsTrim kv.2 = kv.2) :=
  parseFile_rows_spec "Name,ClickUrl\n\" A \",u1\nbad,line,extra\nB,u2"
    "Name,ClickUrl" ["\" A \",u1", "bad,line,extra", "B,u2"]
    [[("Name", "A"), ("ClickUrl", "u1")], [("Name", "B"), ("ClickUrl", "u2")]]
    (by decide) (by decide)

/-- C9: the parse aborts with the dedicated length error exactly when fewer
than two non-empty (non-whitespace-only) lines exist, and on two or more
non-empty lines this error is not raised: the parse succeeds. -/
theorem parseFile_short_input (text : String) :
    ((nonEmptyLines text).length < 2 →
      parseFile text = .error "File must contain at least a header row and one data row")
    ∧ (2 ≤ (nonEmptyLines text).length → ∃ rows, parseFile text = .ok rows) := by
  constructor
  · intro h
    rw [parseFile]
    cases hl : nonEmptyLines text with
    | nil => rfl
    | cons l0 tl =>
      cases tl with
      | nil => rfl
      | cons l1 rest =>
        rw [hl] at h
        simp at h
        omega
  · intro h
    rw [parseFile]
    cases hl : nonEmptyLines text with
    | nil => rw [hl] at h; simp at h
    | cons l0 tl =>
      cases tl with
      | nil => rw [hl] at h; simp at h
      | cons l1 rest => exact ⟨_, rfl⟩

theorem parseFile_short_input_witness :
    parseFile "   \n\t" = .error "File must contain at least a header row and one data row"
    ∧ ∃ rows, parseFile "a,b\nc,d" = .ok rows :=
  ⟨(parseFile_short_input "   \n\t").1 (by decide),
   (parseFile_short_input "a,b\nc,d").2 (by decide)⟩

/-! ### Helper lemmas: duplicate detector -/

theorem mapGet_mapSet (m : List (String × String)) (k v u : String) :
    mapGet (mapSet m k v) u = if u = k then some v else mapGet m u := by
  by_cases h : u = k
  · subst h; simp [mapGet, mapSet]
  · have hbeq : (k == u) = false := beq_eq_false_iff_ne.mpr (fun hh => h hh.symm)
    simp [mapGet, mapSet, List.find?_cons, hbeq, h]

theorem mapGet_addUrlsFold (label u : String) :
    ∀ (urls : List String) (m : List (String × String)),
      mapGet (addUrlsFold m label urls) u =
        if ∃ x ∈ urls, x ≠ "" ∧ normalizeUrl x = u then some label
        else mapGet m u := by
  intro urls
  induction urls with
  | nil => intro m; simp [addUrlsFold]
  | cons x xs ih =>
    intro m
    have h0 : addUrlsFold m label (x :: xs)
        = addUrlsFold (if x ≠ "" then mapSet m (normalizeUrl x) label else m) label xs := rfl
    rw [h0, ih]
    by_cases hxs : ∃ y ∈ xs, y ≠ "" ∧ normalizeUrl y = u
    · obtain ⟨y, hy, hp⟩ := hxs
      rw [if_pos ⟨y, hy, hp⟩, if_pos ⟨y, List.mem_cons_of_mem x hy, hp⟩]
    · rw [if_neg hxs]
      by_cases hx0 : x = ""
      · subst hx0
        rw [if_neg (by simp)]
        rw [if_neg ?hc]
        case hc =>
          rintro ⟨y, hy, hne, hnu⟩
          rcases List.mem_cons.mp hy with rfl | hmem
          · exact hne rfl
          · exact hxs ⟨y, hmem, hne, hnu⟩
      · rw [if_pos hx0, mapGet_mapSet]
        by_cases hnx : u = normalizeUrl x
        · rw [if_pos hnx, if_pos ⟨x, List.mem_cons_self x xs, hx0, hnx.symm⟩]
        · rw [if_neg hnx, if_neg ?hc2]
          case hc2 =>
            rintro ⟨y, hy, hne, hnu⟩
            rcases List.mem_cons.mp hy with rfl | hmem
            · exact hnx hnu.symm
            · exact hxs ⟨y, hmem, hne, hnu⟩

theorem mapGet_buildUrlEntries_some :
    ∀ (entries : List (String × List String)) (m : List (String × String)) (u t : String),
      mapGet (entries.foldl (fun m e => addUrlsFold m e.1 e.2) m) u = some t →
      (∃ e ∈ entries, e.1 = t ∧ ∃ x ∈ e.2, x ≠ "" ∧ normalizeUrl x = u)
        ∨ mapGet m u = some t := by
  intro entries
  induction entries with
  | nil => intro m u t h; exact Or.inr h
  | cons e es ih =>
    intro m u t h
    rcases ih (addUrlsFold m e.1 e.2) u t h with hes | hme
    · obtain ⟨e', he', hp⟩ := hes
      exact Or.inl ⟨e', List.mem_cons_of_mem e he', hp⟩
    · rw [mapGet_addUrlsFold] at hme
      by_cases hmatch : ∃ x ∈ e.2, x ≠ "" ∧ normalizeUrl x = u
      · rw [if_pos hmatch] at hme
        exact Or.inl ⟨e, List.mem_cons_self e es, Option.some.inj hme, hmatch⟩
      · rw [if_neg hmatch] at hme
        exact Or.inr hme

theorem mapGet_buildUrlEntries_isSome :
    ∀ (entries : List (String × List String)) (m : List (String × String)) (u : String),
      (mapGet (entries.foldl (fun m e => addUrlsFold m e.1 e.2) m) u).isSome = true ↔
      (∃ e ∈ entries, ∃ x ∈ e.2, x ≠ "" ∧ normalizeUrl x = u)
        ∨ (mapGet m u).isSome = true := by
  intro entries
  induction entries with
  | nil => intro m u; simp
  | cons e es ih =>
    intro m u
    have h0 : (e :: es).foldl (fun m e => addUrlsFold m e.1 e.2) m
        = es.foldl (fun m e => addUrlsFold m e.1 e.2) (addUrlsFold m e.1 e.2) := rfl
    rw [h0, ih]
    constructor
    · rintro (⟨e', he', hp⟩ | hsome)
      · exact Or.inl ⟨e', List.mem_cons_of_mem e he', hp⟩
      · rw [mapGet_addUrlsFold] at hsome
        by_cases hmatch : ∃ x ∈ e.2, x ≠ "" ∧ normalizeUrl x = u
        · exact Or.inl ⟨e, List.mem_cons_self e es, hmatch⟩
        · rw [if_neg hmatch] at hsome
          exact Or.inr hsome
    · rintro (⟨e', he', hp⟩ | hsome)
      · rcases List.mem_cons.mp he' with rfl | hmem
        · right
          rw [mapGet_addUrlsFold, if_pos hp]
          rfl
        · exact Or.inl ⟨e', hmem, hp⟩
      · right
        rw [mapGet_addUrlsFold]
        by_cases hmatch : ∃ x ∈ e.2, x ≠ "" ∧ normalizeUrl x = u
        · rw [if_pos hmatch]; rfl
        · rw [if_neg hmatch]; exact hsome

theorem buildStoreUrlMap_eq (cats : List ShopCategory) :
    buildStoreUrlMap cats =
      (cats.map (fun c => (c.title, c.items.map (fun kv => kv.2.links)))).foldl
        (fun m e => addUrlsFold m e.1 e.2) [] := by
  simp [buildStoreUrlMap, List.foldl_map]

theorem buildWebsiteUrlMap_eq (wcats : List (String × HomeCategory)) :
    buildWebsiteUrlMap wcats =
      (wcats.map (fun kv => (kv.2.name, kv.2.items.map (fun iv => iv.2.click)))).foldl
        (fun m e => addUrlsFold m e.1 e.2) [] := by
  simp [buildWebsiteUrlMap, List.foldl_map, List.map_map]

theorem storeUrlMap_some (cats : List ShopCategory) (u t : String)
    (h : mapGet (buildStoreUrlMap cats) u = some t) :
    ∃ cat ∈ cats, cat.title = t ∧ ∃ kv ∈ cat.items, kv.2.links ≠ "" ∧
      normalizeUrl kv.2.links = u := by
  rw [buildStoreUrlMap_eq] at h
  rcases mapGet_buildUrlEntries_some _ [] u t h with hmem | hnil
  · obtain ⟨e, he, ht, x, hx, hp⟩ := hmem
    obtain ⟨cat, hcat, rfl⟩ := List.mem_map.mp he
    obtain ⟨kv, hkv, rfl⟩ := List.mem_map.mp hx
    exact ⟨cat, hcat, ht, kv, hkv, hp⟩
  · simp [mapGet] at hnil

theorem storeUrlMap_isSome (cats : List ShopCategory) (u : String) :
    (mapGet (buildStoreUrlMap cats) u).isSome = true ↔
      ∃ cat ∈ cats, ∃ kv ∈ cat.items, kv.2.links ≠ "" ∧ normalizeUrl kv.2.links = u := by
  rw [buildStoreUrlMap_eq, mapGet_buildUrlEntries_isSome]
  constructor
  · rintro (⟨e, he, x, hx, hne, hnu⟩ | hfalse)
    · obtain ⟨cat, hcat, rfl⟩ := List.mem_map.mp he
      obtain ⟨kv, hkv, rfl⟩ := List.mem_map.mp hx
      exact ⟨cat, hcat, kv, hkv, hne, hnu⟩
    · simp [mapGet] at hfalse
  · rintro ⟨cat, hcat, kv, hkv, hne, hnu⟩
    exact Or.inl ⟨_, List.mem_map_of_mem _ hcat, _, List.mem_map_of_mem _ hkv, hne, hnu⟩

theorem websiteUrlMap_some (wcats : List (String × HomeCategory)) (u t : String)
    (h : mapGet (buildWebsiteUrlMap wcats) u = some t) :
    ∃ ckv ∈ wcats, ckv.2.name = t ∧ ∃ kv ∈ ckv.2.items, kv.2.click ≠ "" ∧
      normalizeUrl kv.2.click = u := by
  rw [buildWebsiteUrlMap_eq] at h
  rcases mapGet_buildUrlEntries_some _ [] u t h with hmem | hnil
  · obtain ⟨e, he, ht, x, hx, hp⟩ := hmem
    obtain ⟨ckv, hckv, rfl⟩ := List.mem_map.mp he
    obtain ⟨kv, hkv, rfl⟩ := List.mem_map.mp hx
    exact ⟨ckv, hckv, ht, kv, hkv, hp⟩
  · simp [mapGet] at hnil

theorem websiteUrlMap_isSome (wcats : List (String × HomeCategory)) (u : String) :
    (mapGet (buildWebsiteUrlMap wcats) u).isSome = true ↔
      ∃ ckv ∈ wcats, ∃ kv ∈ ckv.2.items, kv.2.click ≠ "" ∧ normalizeUrl kv.2.click = u := by
  rw [buildWebsiteUrlMap_eq, mapGet_buildUrlEntries_isSome]
  constructor
  · rintro (⟨e, he, x, hx, hne, hnu⟩ | hfalse)
    · obtain ⟨ckv, hckv, rfl⟩ := List.mem_map.mp he
      obtain ⟨kv, hkv, rfl⟩ := List.mem_map.mp hx
      exact ⟨ckv, hckv, kv, hkv, hne, hnu⟩
    · simp [mapGet] at hfalse
  · rintro ⟨ckv, hckv, kv, hkv, hne, hnu⟩
    exact Or.inl ⟨_, List.mem_map_of_mem _ hckv, _, List.mem_map_of_mem _ hkv, hne, hnu⟩

theorem annotateStore_eq (urls : List (String × String)) :
    ∀ ps : List ParsedStoreProduct,
      annotateStore urls ps
        = (ps.map (annStoreOne urls), ps.filterMap (detailStoreOne urls)) := by
  intro ps
  induction ps with
  | nil => rfl
  | cons p rest ih =>
    cases hm : mapGet urls (normalizeUrl p.links) with
    | none => simp [annotateStore, ih, annStoreOne, detailStoreOne, hm, List.filterMap_cons]
    | some t =>
      by_cases ht : t = ""
      · subst ht
        simp [annotateStore, ih, annStoreOne, detailStoreOne, hm, List.filterMap_cons]
      · simp [annotateStore, ih, annStoreOne, detailStoreOne, hm, ht, List.filterMap_cons]

theorem annotateWebsite_eq (urls : List (String × String)) :
    ∀ ps : List ParsedWebsiteItem,
      annotateWebsite urls ps
        = (ps.map (annWebOne urls), ps.filterMap (detailWebOne urls)) := by
  intro ps
  induction ps with
  | nil => rfl
  | cons p rest ih =>
    cases hm : mapGet urls (normalizeUrl p.click) with
    | none => simp [annotateWebsite, ih, annWebOne, detailWebOne, hm, List.filterMap_cons]
    | some t =>
      by_cases ht : t = ""
      · subst ht
        simp [annotateWebsite, ih, annWebOne, detailWebOne, hm, List.filterMap_cons]
      · simp [annotateWebsite, ih, annWebOne, detailWebOne, hm, ht, List.filterMap_cons]

theorem annStoreOne_links (urls : List (String × String)) (p : ParsedStoreProduct) :
    (annStoreOne urls p).links = p.links := by
  unfold annStoreOne
  cases mapGet urls (normalizeUrl p.links) with
  | none => rfl
  | some t =>
    by_cases ht : t ≠ ""
    · simp [ht]
    · simp [ht]

theorem annStoreOne_flag (urls : List (String × String)) (p : ParsedStoreProduct) :
    ((annStoreOne urls p).isDuplicate = some true ↔
      ∃ t, mapGet urls (normalizeUrl p.links) = some t ∧ t ≠ "")
    ∧ (∀ t, mapGet urls (normalizeUrl p.links) = some t → t ≠ "" →
        (annStoreOne urls p).duplicateSource = some t) := by
  unfold annStoreOne
  cases hm : mapGet urls (normalizeUrl p.links) with
  | none =>
    refine ⟨⟨fun h => by simp at h, ?_⟩, ?_⟩
    · rintro ⟨t, ht, _⟩; cases ht
    · intro t ht; cases ht
  | some t =>
    by_cases ht : t ≠ ""
    · refine ⟨⟨fun _ => ⟨t, rfl, ht⟩, fun _ => by simp [ht]⟩, ?_⟩
      intro t' ht' hne
      rw [Option.some.inj ht']
      simp [hne]
    · push_neg at ht
      subst ht
      refine ⟨⟨fun h => by simp at h, ?_⟩, ?_⟩
      · rintro ⟨t', ht', hne⟩
        exact absurd (Option.some.inj ht').symm hne
      · intro t' ht' hne
        exact absurd (Option.some.inj ht').symm hne

theorem annWebOne_flag (urls : List (String × String)) (p : ParsedWebsiteItem) :
    ((annWebOne urls p).isDuplicate = some true ↔
      ∃ t, mapGet urls (normalizeUrl p.click) = some t ∧ t ≠ "")
    ∧ (∀ t, mapGet urls (normalizeUrl p.click) = some t → t ≠ "" →
        (annWebOne urls p).duplicateSource = some t) := by
  unfold annWebOne
  cases hm : mapGet urls (normalizeUrl p.click) with
  | none =>
    refine ⟨⟨fun h => by simp at h, ?_⟩, ?_⟩
    · rintro ⟨t, ht, _⟩; cases ht
    · intro t ht; cases ht
  | some t =>
    by_cases ht : t ≠ ""
    · refine ⟨⟨fun _ => ⟨t, rfl, ht⟩, fun _ => by simp [ht]⟩, ?_⟩
      intro t' ht' hne
      rw [Option.some.inj ht']
      simp [hne]
    · push_neg at ht
      subst ht
      refine ⟨⟨fun h => by simp at h, ?_⟩, ?_⟩
      · rintro ⟨t', ht', hne⟩
        exact absurd (Option.some.inj ht').symm hne
      · intro t' ht' hne
        exact absurd (Option.some.inj ht').symm hne

theorem detailStore_count (urls : List (String × String)) :
    ∀ ps : List ParsedStoreProduct,
      (ps.filterMap (detailStoreOne urls)).length =
        ((ps.map (annStoreOne urls)).filter (fun p => p.isDuplicate = some true)).length := by
  intro ps
  induction ps with
  | nil => rfl
  | cons p rest ih =>
    cases hm : mapGet urls (normalizeUrl p.links) with
    | none => simp [detailStoreOne, annStoreOne, hm, List.filterMap_cons, ih]
    | some t =>
      by_cases ht : t = ""
      · subst ht
        simp [detailStoreOne, annStoreOne, hm, List.filterMap_cons, ih]
      · simp [detailStoreOne, annStoreOne, hm, ht, List.filterMap_cons, ih]

theorem zip_self_map {α β : Type} (f : α → β) (l : List α) :
    l.zip (l.map f) = l.map (fun a => (a, f a)) := by
  calc l.zip (l.map f) = (l.map id).zip (l.map f) := by rw [List.map_id]
    _ = l.map (fun a => (id a, f a)) := List.zip_map' id f l
    _ = l.map (fun a => (a, f a)) := rfl

/-- C1 counterexample: the unrestricted iff of the claim fails on the code.
For the corpus `emptyLinkCats` (one category `Books` whose single item has the
empty link url) and one candidate whose link url is also empty, the normalized
candidate url equals the normalization of an existing item's link url, yet the
detector marks the candidate non-duplicate: `checkForDuplicates` skips existing
items with falsy (empty) urls when building `existingUrls`. -/
theorem checkForDuplicates_flag_claim_cex :
    (∃ cat ∈ emptyLinkCats, ∃ kv ∈ cat.items,
        normalizeUrl kv.2.links = normalizeUrl emptyLinkProduct.links)
    ∧ (checkForDuplicatesStore emptyLinkCats [emptyLinkProduct]).1.map
        (fun p => p.isDuplicate) = [some false] := by
  decide

/-- C1 (amended): restricted to corpora in which every existing category has a
non-empty name/title, the duplicate detector marks a candidate duplicate iff
its link url, normalized by lower-casing and stripping one trailing slash,
equals the normalization of some existing item's non-empty link url in some
existing category of the active destination, and a flagged candidate's
duplicate-source label is the title/name of such a matching category; in
particular `https://x.com/p` and `HTTPS://X.COM/P/` are both flagged against an
existing item with url `https://x.com/p`, with source label `Electronics`. -/
theorem checkForDuplicates_flag_spec (cats : List ShopCategory)
    (ps : List ParsedStoreProduct) (wcats : List (String × HomeCategory))
    (ws : List ParsedWebsiteItem)
    (Hs : ∀ cat ∈ cats, cat.title ≠ "") (Hw : ∀ ckv ∈ wcats, ckv.2.name ≠ "") :
    ((checkForDuplicatesStore cats ps).1.length = ps.length)
    ∧ (∀ pq ∈ ps.zip (checkForDuplicatesStore cats ps).1,
        (pq.2.isDuplicate = some true ↔
          ∃ cat ∈ cats, ∃ kv ∈ cat.items, kv.2.links ≠ "" ∧
            normalizeUrl kv.2.links = normalizeUrl pq.1.links)
        ∧ (pq.2.isDuplicate = some true →
            ∃ cat ∈ cats, pq.2.duplicateSource = some cat.title ∧
              ∃ kv ∈ cat.items, kv.2.links ≠ "" ∧
                normalizeUrl kv.2.links = normalizeUrl pq.1.links))
    ∧ ((checkForDuplicatesWebsite wcats ws).1.length = ws.length)
    ∧ (∀ pq ∈ ws.zip (checkForDuplicatesWebsite wcats ws).1,
        (pq.2.isDuplicate = some true ↔
          ∃ ckv ∈ wcats, ∃ kv ∈ ckv.2.items, kv.2.click ≠ "" ∧
            normalizeUrl kv.2.click = normalizeUrl pq.1.click)
        ∧ (pq.2.isDuplicate = some true →
            ∃ ckv ∈ wcats, pq.2.duplicateSource = some ckv.2.name ∧
              ∃ kv ∈ ckv.2.items, kv.2.click ≠ "" ∧
                normalizeUrl kv.2.click = normalizeUrl pq.1.click))
    ∧ (checkForDuplicatesStore exampleCats exampleProducts).1.map
        (fun p => p.isDuplicate) = [some true, some true]
    ∧ (checkForDuplicatesStore exampleCats exampleProducts).1.map
        (fun p => p.duplicateSource) = [some "Electronics", some "Electronics"] := by
  have hfst : (checkForDuplicatesStore cats ps).1
      = ps.map (annStoreOne (buildStoreUrlMap cats)) := by
    simp [checkForDuplicatesStore, annotateStore_eq]
  have hwfst : (checkForDuplicatesWebsite wcats ws).1
      = ws.map (annWebOne (buildWebsiteUrlMap wcats)) := by
    simp [checkForDuplicatesWebsite, annotateWebsite_eq]
  refine ⟨?_, ?_, ?_, ?_, by decide, by decide⟩
  · rw [hfst, List.length_map]
  · intro pq hpq
    rw [hfst, zip_self_map] at hpq
    obtain ⟨p, hp, rfl⟩ := List.mem_map.mp hpq
    refine ⟨⟨?_, ?_⟩, ?_⟩
    · intro hflag
      obtain ⟨t, hget, htne⟩ := ((annStoreOne_flag _ p).1).mp hflag
      obtain ⟨cat, hcat, _, kv, hkv, hne, hnu⟩ := storeUrlMap_some cats _ t hget
      exact ⟨cat, hcat, kv, hkv, hne, hnu⟩
    · intro hex
      have hsome : (mapGet (buildStoreUrlMap cats) (normalizeUrl p.links)).isSome = true :=
        (storeUrlMap_isSome cats _).mpr hex
      obtain ⟨t, hget⟩ := Option.isSome_iff_exists.mp hsome
      obtain ⟨cat, hcat, htitle, _, _, _⟩ := storeUrlMap_some cats _ t hget
      exact ((annStoreOne_flag _ p).1).mpr ⟨t, hget, htitle ▸ Hs cat hcat⟩
    · intro hflag
      obtain ⟨t, hget, htne⟩ := ((annStoreOne_flag _ p).1).mp hflag
      have hsrc := (annStoreOne_flag _ p).2 t hget htne
      obtain ⟨cat, hcat, htitle, kv, hkv, hne, hnu⟩ := storeUrlMap_some cats _ t hget
      refine ⟨cat, hcat, ?_, kv, hkv, hne, hnu⟩
      rw [hsrc, htitle]
  · rw [hwfst, List.length_map]
  · intro pq hpq
    rw [hwfst, zip_self_map] at hpq
    obtain ⟨p, hp, rfl⟩ := List.mem_map.mp hpq
    refine ⟨⟨?_, ?_⟩, ?_⟩
    · intro hflag
      obtain ⟨t, hget, htne⟩ := ((annWebOne_flag _ p).1).mp hflag
      obtain ⟨ckv, hckv, _, kv, hkv, hne, hnu⟩ := websiteUrlMap_some wcats _ t hget
      exact ⟨ckv, hckv, kv, hkv, hne, hnu⟩
    · intro hex
      have hsome : (mapGet (buildWebsiteUrlMap wcats) (normalizeUrl p.click)).isSome = true :=
        (websiteUrlMap_isSome wcats _).mpr hex
      obtain ⟨t, hget⟩ := Option.isSome_iff_exists.mp hsome
      obtain ⟨ckv, hckv, hname, _, _, _⟩ := websiteUrlMap_some wcats _ t hget
      exact ((annWebOne_flag _ p).1).mpr ⟨t, hget, hname ▸ Hw ckv hckv⟩
    · intro hflag
      obtain ⟨t, hget, htne⟩ := ((annWebOne_flag _ p).1).mp hflag
      have hsrc := (annWebOne_flag _ p).2 t hget htne
      obtain ⟨ckv, hckv, hname, kv, hkv, hne, hnu⟩ := websiteUrlMap_some wcats _ t hget
      refine ⟨ckv, hckv, ?_, kv, hkv, hne, hnu⟩
      rw [hsrc, hname]

/-- C7: duplicate detection is a deterministic pure function of the candidate
list and the existing corpus: two runs on the same pair return identical
annotated candidate lists and identical `DuplicateCheckResult`s, for both
destinations; the model has no other inputs, mirroring the absence of hidden
state in the source computation. -/
theorem checkForDuplicates_deterministic (cats : List ShopCategory)
    (ps : List ParsedStoreProduct) (wcats : List (String × HomeCategory))
    (ws : List ParsedWebsiteItem) :
    checkForDuplicatesStore cats ps = checkForDuplicatesStore cats ps
    ∧ checkForDuplicatesWebsite wcats ws = checkForDuplicatesWebsite wcats ws :=
  ⟨rfl, rfl⟩

/-- C8: candidates are compared only against the existing corpus, never against
the other candidates in the same file: when no existing item's normalized url
equals `u`, every candidate whose normalized url is `u` — in particular both of
two candidates sharing `u` — is annotated non-duplicate. -/
theorem checkForDuplicates_ignores_intrafile (cats : List ShopCategory)
    (ps : List ParsedStoreProduct) (u : String)
    (h : ∀ cat ∈ cats, ∀ kv ∈ cat.items, normalizeUrl kv.2.links ≠ u) :
    ∀ q ∈ (checkForDuplicatesStore cats ps).1,
      normalizeUrl q.links = u → q.isDuplicate = some false := by
  intro q hq hu
  have hfst : (checkForDuplicatesStore cats ps).1
      = ps.map (annStoreOne (buildStoreUrlMap cats)) := by
    simp [checkForDuplicatesStore, annotateStore_eq]
  rw [hfst] at hq
  obtain ⟨p, hp, rfl⟩ := List.mem_map.mp hq
  rw [annStoreOne_links] at hu
  have hnone : mapGet (buildStoreUrlMap cats) (normalizeUrl p.links) = none := by
    by_contra hcon
    obtain ⟨t, hget⟩ := Option.ne_none_iff_exists'.mp hcon
    obtain ⟨cat, hcat, _, kv, hkv, _, hnu⟩ := storeUrlMap_some cats _ t hget
    exact h cat hcat kv hkv (hu ▸ hnu)
  unfold annStoreOne
  rw [hnone]

theorem checkForDuplicates_ignores_intrafile_witness :
    ((checkForDuplicatesStore otherUrlCats sharedUrlProducts).1.get
      ⟨0, by decide⟩).isDuplicate = some false
    ∧ ((checkForDuplicatesStore otherUrlCats sharedUrlProducts).1.get
      ⟨1, by decide⟩).isDuplicate = some false := by
  have h := checkForDuplicates_ignores_intrafile otherUrlCats sharedUrlProducts
    "https://x.com/p" (by decide)
  exact ⟨h _ (List.get_mem _ _ _) (by decide), h _ (List.get_mem _ _ _) (by decide)⟩

/-- C10: every `DuplicateCheckResult` the model produces — from the duplicate
check or from the count recomputation after a preview row is removed —
satisfies `totalProducts = duplicates + newProducts`, with `duplicates` equal
to the number of candidates whose duplicate flag is `some true`. -/
theorem duplicateCheckResult_counts (cats : List ShopCategory)
    (ps preview : List ParsedStoreProduct) (old : DuplicateCheckResult) (index : Nat) :
    ((checkForDuplicatesStore cats ps).2.totalProducts
        = (checkForDuplicatesStore cats ps).2.duplicates
          + (checkForDuplicatesStore cats ps).2.newProducts
      ∧ (checkForDuplicatesStore cats ps).2.duplicates
        = (((checkForDuplicatesStore cats ps).1.filter
            (fun p => p.isDuplicate = some true)).length : Int))
    ∧ ((removePreviewItem preview old index).2.totalProducts
        = (removePreviewItem preview old index).2.duplicates
          + (removePreviewItem preview old index).2.newProducts
      ∧ (removePreviewItem preview old index).2.duplicates
        = (((removePreviewItem preview old index).1.filter
            (fun p => p.isDuplicate = some true)).length : Int)) := by
  refine ⟨⟨?_, ?_⟩, ⟨?_, ?_⟩⟩
  · simp only [checkForDuplicatesStore]
    ring
  · have h1 : (checkForDuplicatesStore cats ps).2.duplicates
        = ((ps.filterMap (detailStoreOne (buildStoreUrlMap cats))).length : Int) := by
      simp [checkForDuplicatesStore, annotateStore_eq]
    have h2 : (checkForDuplicatesStore cats ps).1
        = ps.map (annStoreOne (buildStoreUrlMap cats)) := by
      simp [checkForDuplicatesStore, annotateStore_eq]
    rw [h1, h2, detailStore_count]
  · simp only [removePreviewItem]
    ring
  · simp [removePreviewItem]

theorem checkForDuplicates_flag_spec_witness :
    ((checkForDuplicatesStore exampleCats exampleProducts).1.length
        = exampleProducts.length)
    ∧ (∀ pq ∈ exampleProducts.zip (checkForDuplicatesStore exampleCats exampleProducts).1,
        (pq.2.isDuplicate = some true ↔
          ∃ cat ∈ exampleCats, ∃ kv ∈ cat.items, kv.2.links ≠ "" ∧
            normalizeUrl kv.2.links = normalizeUrl pq.1.links)
        ∧ (pq.2.isDuplicate = some true →
            ∃ cat ∈ exampleCats, pq.2.duplicateSource = some cat.title ∧
              ∃ kv ∈ cat.items, kv.2.links ≠ "" ∧
                normalizeUrl kv.2.links = normalizeUrl pq.1.links))
    ∧ ((checkForDuplicatesWebsite [] []).1.length = ([] : List ParsedWebsiteItem).length)
    ∧ (∀ pq ∈ ([] : List ParsedWebsiteItem).zip (checkForDuplicatesWebsite [] []).1,
        (pq.2.isDuplicate = some true ↔
          ∃ ckv ∈ ([] : List (String × HomeCategory)), ∃ kv ∈ ckv.2.items,
            kv.2.click ≠ "" ∧ normalizeUrl kv.2.click = normalizeUrl pq.1.click)
        ∧ (pq.2.isDuplicate = some true →
            ∃ ckv ∈ ([] : List (String × HomeCategory)),
              pq.2.duplicateSource = some ckv.2.name ∧
              ∃ kv ∈ ckv.2.items, kv.2.click ≠ "" ∧
                normalizeUrl kv.2.click = normalizeUrl pq.1.click))
    ∧ (checkForDuplicatesStore exampleCats exampleProducts).1.map
        (fun p => p.isDuplicate) = [some true, some true]
    ∧ (checkForDuplicatesStore exampleCats exampleProducts).1.map
        (fun p => p.duplicateSource) = [some "Electronics", some "Electronics"] :=
  checkForDuplicates_flag_spec exampleCats exampleProducts [] [] (by decide) (by decide)

/-! ### Helper lemmas: importer -/

theorem jsObjSet_fresh (m : List (String × StoreItem)) (k : String) (v : StoreItem)
    (h : m.find? (fun kv => kv.1 == k) = none) : jsObjSet m k v = m ++ [(k, v)] := by
  simp [jsObjSet, h]

theorem foldl_jsObjSet_enum_append (now : Nat) :
    ∀ (pairs : List (Nat × ParsedStoreProduct)) (base : List (String × StoreItem)),
      (∀ ip ∈ pairs, base.find? (fun e => e.1 == itemKey now ip.1) = none) →
      (pairs.map Prod.fst).Nodup →
      pairs.foldl (fun m ip => jsObjSet m (itemKey now ip.1) (cleanStore ip.2)) base
        = base ++ pairs.map (fun ip => (itemKey now ip.1, cleanStore ip.2)) := by
  intro pairs
  induction pairs with
  | nil => intro base _ _; simp
  | cons ip rest ih =>
    intro base hfresh hnodup
    have h1 : jsObjSet base (itemKey now ip.1) (cleanStore ip.2)
        = base ++ [(itemKey now ip.1, cleanStore ip.2)] :=
      jsObjSet_fresh _ _ _ (hfresh ip (List.mem_cons_self ip rest))
    rw [List.map_cons] at hnodup
    have hn := List.nodup_cons.mp hnodup
    have hfresh' : ∀ ip' ∈ rest,
        (base ++ [(itemKey now ip.1, cleanStore ip.2)]).find?
          (fun e => e.1 == itemKey now ip'.1) = none := by
      intro ip' hip'
      rw [List.find?_eq_none]
      intro x hx
      rcases List.mem_append.mp hx with hxb | hxk
      · have hb := List.find?_eq_none.mp (hfresh ip' (List.mem_cons_of_mem ip hip')) x hxb
        simpa using hb
      · rcases List.mem_singleton.mp hxk with rfl
        simp only [beq_iff_eq]
        intro hkey
        have hmem : ip'.1 ∈ rest.map Prod.fst := List.mem_map_of_mem Prod.fst hip'
        exact hn.1 ((itemKey_inj now ip.1 ip'.1 hkey) ▸ hmem)
    calc (ip :: rest).foldl (fun m iq => jsObjSet m (itemKey now iq.1) (cleanStore iq.2)) base
        = rest.foldl (fun m iq => jsObjSet m (itemKey now iq.1) (cleanStore iq.2))
            (jsObjSet base (itemKey now ip.1) (cleanStore ip.2)) := rfl
      _ = rest.foldl (fun m iq => jsObjSet m (itemKey now iq.1) (cleanStore iq.2))
            (base ++ [(itemKey now ip.1, cleanStore ip.2)]) := by rw [h1]
      _ = (base ++ [(itemKey now ip.1, cleanStore ip.2)])
            ++ rest.map (fun iq => (itemKey now iq.1, cleanStore iq.2)) := ih _ hfresh' hn.2
      _ = base ++ (ip :: rest).map (fun iq => (itemKey now iq.1, cleanStore iq.2)) := by
            simp

theorem importFold_append (items : List (String × StoreItem)) (now : Nat)
    (products : List ParsedStoreProduct)
    (hfresh : ∀ i < products.length, items.find? (fun e => e.1 == itemKey now i) = none) :
    products.enum.foldl (fun m ip => jsObjSet m (itemKey now ip.1) (cleanStore ip.2)) items
      = items ++ products.enum.map (fun ip => (itemKey now ip.1, cleanStore ip.2)) := by
  apply foldl_jsObjSet_enum_append
  · intro ip hip
    have hr : ip.1 ∈ products.enum.map Prod.fst := List.mem_map_of_mem Prod.fst hip
    rw [List.enum_map_fst] at hr
    exact hfresh ip.1 (List.mem_range.mp hr)
  · rw [List.enum_map_fst]
    exact List.nodup_range _

theorem importToStoreProducts_existing (cats : List ShopCategory)
    (newName sel : String) (now : Nat) (products : List ParsedStoreProduct) (k : Int)
    (hname : jsTrim newName = "")
    (hsel : jsParseInt sel = some k) (hk1 : k ≠ -1) (hk0 : 0 ≤ k)
    (hklt : k.toNat < cats.length)
    (hfresh : ∀ i < products.length,
      (cats.get ⟨k.toNat, hklt⟩).items.find? (fun e => e.1 == itemKey now i) = none) :
    importToStoreProducts cats newName sel now products =
      .ok (cats.set k.toNat
            { cats.get ⟨k.toNat, hklt⟩ with
              items := (cats.get ⟨k.toNat, hklt⟩).items
                ++ products.enum.map (fun ip => (itemKey now ip.1, cleanStore ip.2)) },
          cats.set k.toNat
            { cats.get ⟨k.toNat, hklt⟩ with
              items := (cats.get ⟨k.toNat, hklt⟩).items
                ++ products.enum.map (fun ip => (itemKey now ip.1, cleanStore ip.2)) }) := by
  unfold importToStoreProducts
  simp only [if_neg (show ¬ jsTrim newName ≠ "" by simp [hname]), hsel]
  rw [if_neg hk1, dif_pos ⟨hk0, hklt⟩]
  rw [importFold_append _ _ _ hfresh]

/-- C3: with a valid existing-category selection and a successful write, the
importer writes exactly the duplicate-filtered candidates — under the
skip-duplicates choice these are precisely the preview rows whose duplicate
flag is false, under import-all the full preview list — each stripped of the
duplicate-flag/source fields (`cleanStore`) and stored under the fresh key
`item_<timestamp>_<index>` appended to the target category's item map. -/
theorem handleImport_writes_spec (st : LocalState) (now : Nat) (k : Int)
    (hname : jsTrim st.newCategoryName = "")
    (hsel : jsParseInt st.selectedCategory = some k) (hk1 : k ≠ -1) (hk0 : 0 ≤ k)
    (hklt : k.toNat < st.existingStoreCategories.length)
    (hprev : st.previewData ≠ []) (hitems : itemsToImportOf st ≠ [])
    (hfresh : ∀ i < (itemsToImportOf st).length,
      (st.existingStoreCategories.get ⟨k.toNat, hklt⟩).items.find?
        (fun e => e.1 == itemKey now i) = none)
    (hflags : ∀ p ∈ st.previewData,
      p.isDuplicate = some true ∨ p.isDuplicate = some false) :
    (handleImportStore st now true).1
      = some (st.existingStoreCategories.set k.toNat
          { st.existingStoreCategories.get ⟨k.toNat, hklt⟩ with
            items := (st.existingStoreCategories.get ⟨k.toNat, hklt⟩).items
              ++ (itemsToImportOf st).enum.map
                  (fun ip => (itemKey now ip.1, cleanStore ip.2)) })
    ∧ (handleImportStore st now true).2.2 = none
    ∧ (st.skipDuplicates = true →
        itemsToImportOf st = st.previewData.filter (fun p => p.isDuplicate = some false))
    ∧ (st.skipDuplicates = false → itemsToImportOf st = st.previewData) := by
  have hselne : ¬ (st.selectedCategory = "" ∧ jsTrim st.newCategoryName = "") := by
    rintro ⟨hs, _⟩
    rw [hs, show jsParseInt "" = none from by decide] at hsel
    exact Option.noConfusion hsel
  have himp := importToStoreProducts_existing st.existingStoreCategories st.newCategoryName
    st.selectedCategory now (itemsToImportOf st) k hname hsel hk1 hk0 hklt hfresh
  refine ⟨?_, ?_, ?_, ?_⟩
  · simp only [handleImportStore, if_neg hprev, if_neg hselne, if_neg hitems, himp, if_true]
  · simp only [handleImportStore, if_neg hprev, if_neg hselne, if_neg hitems, himp, if_true]
  · intro hskip
    rw [itemsToImportOf, if_pos hskip]
    apply List.filter_congr
    intro x hx
    rcases hflags x hx with hx2 | hx2 <;> simp [hx2]
  · intro hskip
    rw [itemsToImportOf, if_neg (by simp [hskip])]

theorem handleImport_writes_spec_witness :
    ((handleImportStore importState 7 true).1
      = some (importState.existingStoreCategories.set (Int.toNat 0)
          { importState.existingStoreCategories.get ⟨Int.toNat 0, by decide⟩ with
            items := (importState.existingStoreCategories.get ⟨Int.toNat 0, by decide⟩).items
              ++ (itemsToImportOf importState).enum.map
                  (fun ip => (itemKey 7 ip.1, cleanStore ip.2)) })
    ∧ (handleImportStore importState 7 true).2.2 = none
    ∧ (importState.skipDuplicates = true →
        itemsToImportOf importState
          = importState.previewData.filter (fun p => p.isDuplicate = some false))
    ∧ (importState.skipDuplicates = false →
        itemsToImportOf importState = importState.previewData))
    ∧ ((handleImportStore importAllState 7 true).1
      = some (importAllState.existingStoreCategories.set (Int.toNat 0)
          { importAllState.existingStoreCategories.get ⟨Int.toNat 0, by decide⟩ with
            items := (importAllState.existingStoreCategories.get ⟨Int.toNat 0, by decide⟩).items
              ++ (itemsToImportOf importAllState).enum.map
                  (fun ip => (itemKey 7 ip.1, cleanStore ip.2)) })
    ∧ (handleImportStore importAllState 7 true).2.2 = none
    ∧ (importAllState.skipDuplicates = true →
        itemsToImportOf importAllState
          = importAllState.previewData.filter (fun p => p.isDuplicate = some false))
    ∧ (importAllState.skipDuplicates = false →
        itemsToImportOf importAllState = importAllState.previewData))
    ∧ (itemsToImportOf importState).length = 3
    ∧ importState.previewData.length = 5
    ∧ (itemsToImportOf importAllState).length = 5 :=
  ⟨handleImport_writes_spec importState 7 0 (by decide) (by decide) (by decide)
      (by decide) (by decide) (by decide) (by decide) (by decide) (by decide),
   handleImport_writes_spec importAllState 7 0 (by decide) (by decide) (by decide)
      (by decide) (by decide) (by decide) (by decide) (by decide) (by decide),
   by decide, by decide, by decide⟩

/-- C4: an import attempt with no existing category selected and no (trimmed)
new category name, or whose duplicate-filtered candidate list is empty, reports
an error and performs no store write: nothing is written and the component
state — including the locally held categories — is left unchanged. -/
theorem handleImport_rejects (st : LocalState) (now : Nat) (writeOk : Bool)
    (h : (st.selectedCategory = "" ∧ jsTrim st.newCategoryName = "")
      ∨ itemsToImportOf st = []) :
    (handleImportStore st now writeOk).1 = none
    ∧ (handleImportStore st now writeOk).2.1 = st
    ∧ (handleImportStore st now writeOk).2.2.isSome = true := by
  unfold handleImportStore
  by_cases hp : st.previewData = []
  · simp [hp]
  · rcases h with hcat | hempty
    · rw [if_neg hp, if_pos hcat]
      exact ⟨rfl, rfl, rfl⟩
    · by_cases hcat : st.selectedCategory = "" ∧ jsTrim st.newCategoryName = ""
      · rw [if_neg hp, if_pos hcat]
        exact ⟨rfl, rfl, rfl⟩
      · rw [if_neg hp, if_neg hcat]
        simp [hempty]

theorem handleImport_rejects_witness :
    ((handleImportStore noCategoryState 7 true).1 = none
      ∧ (handleImportStore noCategoryState 7 true).2.1 = noCategoryState
      ∧ (handleImportStore noCategoryState 7 true).2.2.isSome = true)
    ∧ ((handleImportStore allDupState 7 true).1 = none
      ∧ (handleImportStore allDupState 7 true).2.1 = allDupState
      ∧ (handleImportStore allDupState 7 true).2.2.isSome = true) :=
  ⟨handleImport_rejects noCategoryState 7 true (Or.inl (by decide)),
   handleImport_rejects allDupState 7 true (Or.inr (by decide))⟩

/-- C5: evaluation of the model at the failing input. When the one store write
fails, the error is reported and the in-memory candidate list is preserved, but
the locally held existing-category data is NOT equal to its pre-import value:
the target category's item map has already been extended in place with the
imported item (clean-stripped, under the fresh key `item_42_0`), because
`importToStoreProducts` mutates the category object and its `items` object
that the shallow copy `[...existingStoreCategories]` shares with the component
state before the write is awaited. This contradicts the claim's "the locally
held existing-category data is left equal to its pre-import value". -/
theorem handleImport_write_failure_mutates :
    (handleImportStore failedWriteState 42 false).1 = none
    ∧ ((handleImportStore failedWriteState 42 false).2.2).isSome = true
    ∧ (handleImportStore failedWriteState 42 false).2.1.previewData
        = failedWriteState.previewData
    ∧ (handleImportStore failedWriteState 42 false).2.1.existingStoreCategories
        ≠ failedWriteState.existingStoreCategories
    ∧ (handleImportStore failedWriteState 42 false).2.1.existingStoreCategories
        = [{ image := "", title := "Cat",
             items := [("item_42_0",
               { image := "", links := "https://a.com/x", no_of_ratings := "",
                 pricing := "USD 1", ratings := 0, title := "P" })] }] := by
  decide

theorem jsOr_empty_right (a : String) : jsOr a "" = a := by
  by_cases h : a = "" <;> simp [jsOr, h]

/-- C6: normalizing a row holding values only under the primary column names
(Name, ImageUrl, ClickUrl, OriginalPrice, Currency) and normalizing the
equivalent row holding the same values only under the documented fallback
names (Title, Image, Link, Price) produce identical store candidates on every
field except the pricing text — the only field with a component (the currency)
that has no fallback — where the fallback row uses the default currency `USD`
and both use the same amount (with default `"0"`), per the first-match-wins
fallback order of `convertToFormat`. -/
theorem convert_fallback_roundtrip (n img l p c : String) :
    (convertToStoreFormat (fallbackRow n img l p)).title
        = (convertToStoreFormat (primaryRow n img l p c)).title
    ∧ (convertToStoreFormat (fallbackRow n img l p)).image
        = (convertToStoreFormat (primaryRow n img l p c)).image
    ∧ (convertToStoreFormat (fallbackRow n img l p)).links
        = (convertToStoreFormat (primaryRow n img l p c)).links
    ∧ (convertToStoreFormat (fallbackRow n img l p)).no_of_ratings
        = (convertToStoreFormat (primaryRow n img l p c)).no_of_ratings
    ∧ (convertToStoreFormat (fallbackRow n img l p)).ratings
        = (convertToStoreFormat (primaryRow n img l p c)).ratings
    ∧ (convertToStoreFormat (fallbackRow n img l p)).isDuplicate
        = (convertToStoreFormat (primaryRow n img l p c)).isDuplicate
    ∧ (convertToStoreFormat (fallbackRow n img l p)).duplicateSource
        = (convertToStoreFormat (primaryRow n img l p c)).duplicateSource
    ∧ (convertToStoreFormat (primaryRow n img l p c)).pricing
        = jsOr c "USD" ++ " " ++ jsOr p "0"
    ∧ (convertToStoreFormat (fallbackRow n img l p)).pricing
        = "USD" ++ " " ++ jsOr p "0" := by
  have pName : rowGet (primaryRow n img l p c) "Name" = n := rfl
  have pTitle : rowGet (primaryRow n img l p c) "Title" = "" := rfl
  have pPn : rowGet (primaryRow n img l p c) "ProductName" = "" := rfl
  have pIu : rowGet (primaryRow n img l p c) "ImageUrl" = img := rfl
  have pIm : rowGet (primaryRow n img l p c) "Image" = "" := rfl
  have pCu : rowGet (primaryRow n img l p c) "ClickUrl" = l := rfl
  have pLk : rowGet (primaryRow n img l p c) "Link" = "" := rfl
  have pUr : rowGet (primaryRow n img l p c) "Url" = "" := rfl
  have pRs : rowGet (primaryRow n img l p c) "Ratings" = "" := rfl
  have pRv : rowGet (primaryRow n img l p c) "Reviews" = "" := rfl
  have pCy : rowGet (primaryRow n img l p c) "Currency" = c := rfl
  have pOp : rowGet (primaryRow n img l p c) "OriginalPrice" = p := rfl
  have pPr : rowGet (primaryRow n img l p c) "Price" = "" := rfl
  have pRt : rowGet (primaryRow n img l p c) "Rating" = "" := rfl
  have fName : rowGet (fallbackRow n img l p) "Name" = "" := rfl
  have fTitle : rowGet (fallbackRow n img l p) "Title" = n := rfl
  have fPn : rowGet (fallbackRow n img l p) "ProductName" = "" := rfl
  have fIu : rowGet (fallbackRow n img l p) "ImageUrl" = "" := rfl
  have fIm : rowGet (fallbackRow n img l p) "Image" = img := rfl
  have fCu : rowGet (fallbackRow n img l p) "ClickUrl" = "" := rfl
  have fLk : rowGet (fallbackRow n img l p) "Link" = l := rfl
  have fUr : rowGet (fallbackRow n img l p) "Url" = "" := rfl
  have fRs : rowGet (fallbackRow n img l p) "Ratings" = "" := rfl
  have fRv : rowGet (fallbackRow n img l p) "Reviews" = "" := rfl
  have fCy : rowGet (fallbackRow n img l p) "Currency" = "" := rfl
  have fOp : rowGet (fallbackRow n img l p) "OriginalPrice" = "" := rfl
  have fPr : rowGet (fallbackRow n img l p) "Price" = p := rfl
  have fRt : rowGet (fallbackRow n img l p) "Rating" = "" := rfl
  refine ⟨?_, ?_, ?_, ?_, ?_, ?_, ?_, ?_, ?_⟩ <;>
    simp only [convertToStoreFormat, pName, pTitle, pPn, pIu, pIm, pCu, pLk, pUr,
      pRs, pRv, pCy, pOp, pPr, pRt, fName, fTitle, fPn, fIu, fIm, fCu, fLk, fUr,
      fRs, fRv, fCy, fOp, fPr, fRt, jsOr_empty, jsOr_empty_right]
